import Mathlib

/-!
# BookTracker core services: a shallow embedding

This file embeds the two core services of the BookTracker repository in Lean 4
and proves the frozen claims about them:

* the Persistence Service (`src/src/services/storage.js`): `validateData`,
  `saveData`, `loadData`, `clearAllData` over a localStorage substrate;
* the Reading List service (second document of
  `src/src/services/storage.test.js`): `addToList`, `updateProgress`;
* the Remote Catalog Client (`src/unnamed/part_001`): the rate limiter
  (`canMakeRequest`, `waitForRateLimit`, `throttledFetch`), the TTL cache
  (`getFromCache`, `setCache`), `withRetry`, and the `searchBooks` pipeline.

Modelling conventions:
* JSON-serializable JavaScript values are the inductive `JsValue`; JS numbers
  are modelled as `Int` (no claim depends on fractional values or NaN).
* `JSON.stringify`/`JSON.parse` at the storage boundary are modelled as the
  identity on `JsValue`: `JsValue` is by construction exactly the
  JSON-serializable domain, on which parse-after-stringify is the identity.
  Consequently the `PARSE_ERROR` and quota paths of the store, which require a
  malformed or overflowing substrate, are not reachable in the model; no claim
  concerns them.
* An absent object property is JS `undefined` and is modelled as `Option.none`
  at each property access.
* `Date.now()` and the current date string are passed explicitly (`now`,
  `today`); cooperative delays advance the explicit clock.
-/

/-- A JSON-serializable JavaScript value.  Numbers are modelled as `Int`. -/
inductive JsValue where
  | null : JsValue
  | bool : Bool → JsValue
  | num : Int → JsValue
  | str : String → JsValue
  | arr : List JsValue → JsValue
  | obj : List (String × JsValue) → JsValue
deriving Repr

namespace JsValue

/-- JS truthiness: `!!v`. -/
def jsTruthy : JsValue → Bool
  | .null => false
  | .bool b => b
  | .num n => n != 0
  | .str s => s ≠ ""
  | .arr _ => true
  | .obj _ => true

/-- JS `typeof v` (where `typeof null = "object"` and arrays are objects). -/
def jsTypeof : JsValue → String
  | .null => "object"
  | .bool _ => "boolean"
  | .num _ => "number"
  | .str _ => "string"
  | .arr _ => "object"
  | .obj _ => "object"

/-- `Array.isArray(v) ? 'array' : typeof v`, the property-type tag used by
`validateData`. -/
def jsPropType (v : JsValue) : String :=
  match v with
  | .arr _ => "array"
  | w => jsTypeof w

end JsValue

mutual

/-- JS `String(v)` on JSON values (arrays join their items with commas, where a
null item renders empty; plain objects render as the object tag). -/
def jsStringOf : JsValue → String
  | .null => "null"
  | .bool b => if b then "true" else "false"
  | .num n => toString n
  | .str s => s
  | .arr xs => String.intercalate "," (jsStringOfItems xs)
  | .obj _ => "[object Object]"

/-- Stringification of array items, as in `Array.prototype.toString`. -/
def jsStringOfItems : List JsValue → List String
  | [] => []
  | .null :: t => "" :: jsStringOfItems t
  | v :: t => jsStringOf v :: jsStringOfItems t

end

/-- A JS object in a reading-list bucket: an ordered association list of
properties.  Bucket entries are always plain objects in every reachable state
(they are built by object spread in `addToList`). -/
abbrev Book := List (String × JsValue)

/-- Property read, `b[name]`; `none` is JS `undefined`. -/
def getF : Book → String → Option JsValue
  | [], _ => none
  | (k, v) :: t, name => if k = name then some v else getF t name

/-- Property write, `b[name] = v`: replaces the existing binding in place or
appends a new one (JS property insertion order). -/
def setF : Book → String → JsValue → Book
  | [], n, v => [(n, v)]
  | (k, w) :: t, n, v => if k = n then (n, v) :: t else (k, w) :: setF t n v

/-- Property removal, `delete b[name]`. -/
def deleteF : Book → String → Book
  | [], _ => []
  | (k, v) :: t, name => if k = name then deleteF t name else (k, v) :: deleteF t name

/-- Property read on an arbitrary JS value (primitives have no own
properties). -/
def getField (v : JsValue) (name : String) : Option JsValue :=
  match v with
  | .obj fs => getF fs name
  | _ => none

/-- Truthiness of a possibly-`undefined` value. -/
def jsTruthyO : Option JsValue → Bool
  | none => false
  | some v => v.jsTruthy

/-- JS `x || d` where `x` may be `undefined`. -/
def jsOrDefault (o : Option JsValue) (d : JsValue) : JsValue :=
  match o with
  | some v => if v.jsTruthy then v else d
  | none => d

/-- `'name' in v` for an object (false on primitives and arrays here, whose
only own keys are indices). -/
def hasField (v : JsValue) (name : String) : Bool :=
  match v with
  | .obj fs => fs.any (fun kv => kv.1 = name)
  | _ => false

/-- `String(b.id)`, the identifier key used throughout the reading-list
service (`String(undefined) = "undefined"`). -/
def idStrB (b : Book) : String :=
  match getF b "id" with
  | some v => jsStringOf v
  | none => "undefined"

-- Structural equality used by `Array.prototype.includes` (SameValueZero) on
-- JSON values; the schema `enum` lists hold only strings, on which this
-- agrees with JS equality.
mutual

/-- Structural equality on JSON values, itemwise on arrays and fieldwise on
objects. -/
def jsBeq : JsValue → JsValue → Bool
  | .null, .null => true
  | .bool a, .bool b => a == b
  | .num a, .num b => a == b
  | .str a, .str b => a == b
  | .arr a, .arr b => jsBeqItems a b
  | .obj a, .obj b => jsBeqFields a b
  | _, _ => false

def jsBeqItems : List JsValue → List JsValue → Bool
  | [], [] => true
  | a :: as, b :: bs => jsBeq a b && jsBeqItems as bs
  | _, _ => false

def jsBeqFields : List (String × JsValue) → List (String × JsValue) → Bool
  | [], [] => true
  | (k, v) :: as, (k', v') :: bs => k == k' && jsBeq v v' && jsBeqFields as bs
  | _, _ => false

end

example : JsValue.jsTruthy (.num 0) = false := by decide
example : getF [("id", .num 3), ("t", .str "x")] "id" = some (.num 3) := by rfl
example : idStrB [("id", .num 3)] = "3" := by rfl
example : deleteF [("a", .null), ("b", .num 1)] "a" = [("b", .num 1)] := by rfl

/-! ## Persistence Service (`src/src/services/storage.js`) -/

/-- `STORAGE_PREFIX` in the source: the namespace every stored key lives
under. -/
def storageNs : String := "booktracker_"

/-- `getFullKey`. -/
def getFullKey (key : String) : String := storageNs ++ key

/-- A property schema: expected scalar type tag and optional `enum` list. -/
structure PropSchema where
  typeS : Option String
  enumVals : Option (List JsValue)
deriving Inhabited

/-- A storage schema as in the source `schemas` table: a `type` tag, optional
`properties`, optional `maxItems`. -/
structure Schema where
  typeS : Option String
  properties : Option (List (String × PropSchema))
  maxItems : Option Nat
deriving Inhabited

/-- The `schemas` table of the source, keyed by storage key. -/
def schemas (key : String) : Option Schema :=
  if key = "reading_lists" then
    some { typeS := some "object"
           properties := some
             [("reading", ⟨some "array", none⟩),
              ("toRead", ⟨some "array", none⟩),
              ("completed", ⟨some "array", none⟩)]
           maxItems := none }
  else if key = "user_stats" then
    some { typeS := some "object"
           properties := some
             [("booksRead", ⟨some "number", none⟩),
              ("pagesRead", ⟨some "number", none⟩),
              ("avgRating", ⟨some "number", none⟩),
              ("readingStreak", ⟨some "number", none⟩)]
           maxItems := none }
  else if key = "user_preferences" then
    some { typeS := some "object"
           properties := some
             [("theme", ⟨some "string", some [.str "light", .str "dark", .str "system"]⟩),
              ("booksPerPage", ⟨some "number", none⟩),
              ("defaultView", ⟨some "string", some [.str "grid", .str "list"]⟩)]
           maxItems := none }
  else if key = "search_history" then
    some { typeS := some "array", properties := none, maxItems := some 50 }
  else if key = "cached_books" then
    some { typeS := some "object", properties := none, maxItems := none }
  else
    none

/-- Result of `validateData`. -/
structure VResult where
  valid : Bool
  errors : List String
deriving Repr, DecidableEq

/-- Errors reported for one declared property that is present in the input:
scalar type match and enum membership (`validateData`, properties loop). -/
def validatePropErrors (data : JsValue) (pname : String) (ps : PropSchema) : List String :=
  match getField data pname with
  | none => []
  | some v =>
    let pt := v.jsPropType
    (match ps.typeS with
     | some t => if pt ≠ t then
         ["Property \"" ++ pname ++ "\" expected " ++ t ++ ", got " ++ pt]
       else []
     | none => []) ++
    (match ps.enumVals with
     | some es =>
       if es.any (fun e => jsBeq e v) then []
       else ["Property \"" ++ pname ++ "\" must be one of: " ++
             String.intercalate ", " (es.map jsStringOf)]
     | none => [])

/-- `validateData(data, schema)`.  Arrays verify container-ness and
`maxItems`; objects verify container-ness and each declared property present
in the input; a scalar `type` verifies `typeof`. -/
def validateData (data : JsValue) (schema : Schema) : VResult :=
  if schema.typeS = some "array" then
    match data with
    | .arr xs =>
      let errs :=
        match schema.maxItems with
        | some m =>
          if m ≠ 0 ∧ xs.length > m then
            ["Array exceeds maximum length of " ++ toString m]
          else []
        | none => []
      { valid := errs.isEmpty, errors := errs }
    | d => { valid := false, errors := ["Expected array, got " ++ d.jsTypeof] }
  else if schema.typeS = some "object" then
    match data with
    | .obj _ =>
      let errs :=
        match schema.properties with
        | some props =>
          props.foldl (fun acc p => acc ++ validatePropErrors data p.1 p.2) []
        | none => []
      { valid := errs.isEmpty, errors := errs }
    | d =>
      let tag := match d with | .arr _ => "array" | w => w.jsTypeof
      { valid := false, errors := ["Expected object, got " ++ tag] }
  else
    match schema.typeS with
    | some t =>
      if data.jsTypeof ≠ t then
        { valid := false, errors := ["Expected " ++ t ++ ", got " ++ data.jsTypeof] }
      else { valid := true, errors := [] }
    | none => { valid := true, errors := [] }

/-- A `StorageError`: message and code (the `originalError` is dropped). -/
structure StorageErr where
  message : String
  code : String
deriving Repr, DecidableEq

/-- A `{ success, error? }` result of the storage operations. -/
structure StoreResult where
  success : Bool
  error : Option StorageErr
deriving Repr, DecidableEq

/-- The localStorage substrate: an availability flag (the throwaway-write
probe `isStorageAvailable`) and the stored key-value pairs.  Stored values are
kept as parsed JSON (`JsValue`); see the module comment. -/
structure LocalStorage where
  available : Bool
  items : List (String × JsValue)
deriving Repr

/-- `localStorage.getItem`. -/
def lsGet (k : String) : List (String × JsValue) → Option JsValue
  | [] => none
  | (k', v) :: t => if k' = k then some v else lsGet k t

/-- `localStorage.setItem`: replace the binding in place or append. -/
def lsSet (k : String) (v : JsValue) : List (String × JsValue) → List (String × JsValue)
  | [] => [(k, v)]
  | (k', v') :: t => if k' = k then (k, v) :: t else (k', v') :: lsSet k v t

/-- The validation step of `saveData`: the collected errors when a registered
schema rejects the data under `validate`, `none` when the write may proceed. -/
def saveValidationErrors (key : String) (data : JsValue) (validate : Bool) :
    Option (List String) :=
  if validate then
    match schemas key with
    | some sch =>
      let vr := validateData data sch
      if vr.valid then none else some vr.errors
    | none => none
  else none

/-- `saveData(key, data, { validate })`.  The quota-exceeded path needs an
overflowing substrate and is not reachable in the model. -/
def saveData (st : LocalStorage) (key : String) (data : JsValue) (validate : Bool)
    (now : Int) : StoreResult × LocalStorage :=
  if st.available = false then
    ({ success := false
       error := some ⟨"localStorage is not available", "STORAGE_UNAVAILABLE"⟩ }, st)
  else
    match saveValidationErrors key data validate with
    | some errs =>
      ({ success := false
         error := some ⟨"Validation failed: " ++ String.intercalate ", " errs,
                        "VALIDATION_FAILED"⟩ }, st)
    | none =>
      let serialized : JsValue :=
        .obj [("data", data), ("timestamp", .num now), ("version", .num 1)]
      ({ success := true, error := none },
       { st with items := lsSet (getFullKey key) serialized st.items })

/-- Result of `loadData`: success flag, payload (possibly the caller default),
the envelope `timestamp` when present, and the error when failed. -/
structure LoadResult where
  success : Bool
  data : JsValue
  timestamp : Option JsValue
  error : Option StorageErr
deriving Repr

/-- `loadData(key, defaultValue)`.  Absence returns the default with success;
a stored versioned envelope is unwrapped, a legacy raw value is returned
whole.  The `PARSE_ERROR` path needs a malformed substrate string and is not
reachable in the model. -/
def loadData (st : LocalStorage) (key : String) (defaultValue : JsValue) : LoadResult :=
  if st.available = false then
    { success := false, data := defaultValue, timestamp := none
      error := some ⟨"localStorage is not available", "STORAGE_UNAVAILABLE"⟩ }
  else
    match lsGet (getFullKey key) st.items with
    | none => { success := true, data := defaultValue, timestamp := none, error := none }
    | some parsed =>
      if parsed.jsTruthy && parsed.jsTypeof = "object" && hasField parsed "data" then
        { success := true
          data := (getField parsed "data").getD .null
          timestamp := getField parsed "timestamp"
          error := none }
      else
        { success := true, data := parsed, timestamp := none, error := none }

/-- `key.startsWith(STORAGE_PREFIX)`, spelled out over the character lists so
that it evaluates inside the kernel. -/
def strStartsWith : List Char → List Char → Bool
  | _, [] => true
  | [], _ :: _ => false
  | c :: s, p :: ps => c == p && strStartsWith s ps

/-- Whether a substrate key carries the application namespace. -/
def startsWithNs (k : String) : Bool := strStartsWith k.data storageNs.data

/-- The bulk removal of `clearAllData`: drop every key carrying the
namespace. -/
def removeNsKeys : List (String × JsValue) → List (String × JsValue)
  | [] => []
  | (k, v) :: t => if startsWithNs k then removeNsKeys t else (k, v) :: removeNsKeys t

/-- `clearAllData()`: collects every key carrying the namespace and removes
it.  Note that when the substrate is unavailable, the thrown
`STORAGE_UNAVAILABLE` error is re-wrapped by the generic catch with code
`INVALID_DATA`, exactly as in the source. -/
def clearAllData (st : LocalStorage) : StoreResult × LocalStorage :=
  if st.available = false then
    ({ success := false
       error := some ⟨"Failed to clear data: localStorage is not available",
                      "INVALID_DATA"⟩ }, st)
  else
    ({ success := true, error := none },
     { st with items := removeNsKeys st.items })

example :
    (validateData (.obj [("reading", .str "x")])
      (schemas "reading_lists").get!).valid = false := by rfl
example :
    (validateData (.obj [("reading", .arr []), ("toRead", .arr []), ("completed", .arr [])])
      (schemas "reading_lists").get!).valid = true := by rfl
example :
    (validateData (.arr (List.replicate 51 (.str "q"))) (schemas "search_history").get!).valid
      = false := by rfl

/-! ## Reading List service (second document of `storage.test.js`) -/

/-- The three buckets.  The model represents the service after
`initReadingLists` has run, so the in-process cache is always present. -/
structure ReadingLists where
  reading : List Book
  toRead : List Book
  completed : List Book
deriving Repr

/-- `lists[listType]`: generic bucket access; `none` is JS `undefined`. -/
def bucketsGet (l : ReadingLists) (listType : String) : Option (List Book) :=
  if listType = "reading" then some l.reading
  else if listType = "toRead" then some l.toRead
  else if listType = "completed" then some l.completed
  else none

/-- `lists[listType] = v` for a recognized bucket name. -/
def bucketsSet (l : ReadingLists) (listType : String) (v : List Book) : ReadingLists :=
  if listType = "reading" then { l with reading := v }
  else if listType = "toRead" then { l with toRead := v }
  else if listType = "completed" then { l with completed := v }
  else l

/-- ASCII upper-casing, `listType.toUpperCase()`. -/
def jsToUpper (s : String) : String := ⟨s.data.map Char.toUpper⟩

/-- `LIST_TYPES[name]`: constant-name lookup on the `LIST_TYPES` object. -/
def listTypesGet (name : String) : Option String :=
  if name = "READING" then some "reading"
  else if name = "TO_READ" then some "toRead"
  else if name = "COMPLETED" then some "completed"
  else none

/-- `Object.values(LIST_TYPES)`. -/
def listTypeValues : List String := ["reading", "toRead", "completed"]

/-- The serialized shape handed to `saveData(STORAGE_KEYS.READING_LISTS, …)`. -/
def listsToJs (l : ReadingLists) : JsValue :=
  .obj [("reading", .arr (l.reading.map .obj)),
        ("toRead", .arr (l.toRead.map .obj)),
        ("completed", .arr (l.completed.map .obj))]

/-- One bucket pass of the removal loop in `addToList`: `findIndex` on
`String(b.id)` followed by `splice(index, 1)` removes the first match. -/
def removeFirstById (id : String) : List Book → List Book
  | [] => []
  | b :: t => if idStrB b = id then t else b :: removeFirstById id t

/-- Number of entries of a bucket carrying the identifier. -/
def countById (id : String) (l : List Book) : Nat :=
  l.countP (fun b => idStrB b = id)

/-- Total number of entries carrying the identifier across the three
buckets. -/
def listsCountById (l : ReadingLists) (id : String) : Nat :=
  countById id l.reading + countById id l.toRead + countById id l.completed

/-- The removal loop of `addToList`: one `findIndex`/`splice` pass over each
bucket. -/
def removeAllBuckets (id : String) (l : ReadingLists) : ReadingLists :=
  { reading := removeFirstById id l.reading
    toRead := removeFirstById id l.toRead
    completed := removeFirstById id l.completed }

/-- The bucket-specific field policy of `addToList`: `reading` defaults
`progress`/`startedDate`; `completed` defaults `completedDate` and drops
`progress`; anything else defaults `addedDate` and drops
`progress`/`completedDate`. -/
def prepareBook (book : Book) (listType : String) (today : String) : Book :=
  if listType = "reading" then
    let b1 := setF book "progress" (jsOrDefault (getF book "progress") (.num 0))
    setF b1 "startedDate" (jsOrDefault (getF b1 "startedDate") (.str today))
  else if listType = "completed" then
    let b1 := setF book "completedDate" (jsOrDefault (getF book "completedDate") (.str today))
    deleteF b1 "progress"
  else
    let b1 := setF book "addedDate" (jsOrDefault (getF book "addedDate") (.str today))
    deleteF (deleteF b1 "progress") "completedDate"

/-- An outcome of a service call that may also throw: `ok` carries the JS
return value, `thrown` an uncaught exception.  Both carry the post-state,
since the service mutates its cache in place. -/
inductive JsOut (α : Type) (σ : Type) where
  | ok (a : α) (s : σ)
  | thrown (msg : String) (s : σ)
deriving Repr

/-- A `{ success, error? }` result of the reading-list operations (the error
here is a plain message string). -/
structure SvcResult where
  success : Bool
  error : Option String
deriving Repr, DecidableEq

/-- Combined state of the reading-list service: the persistence substrate and
the in-process bucket cache. -/
structure AppState where
  storage : LocalStorage
  lists : ReadingLists
deriving Repr

/-- The `error?.message || 'Failed to save'` fallback. -/
def saveFailMsg (r : StoreResult) : String :=
  match r.error with
  | some e => if e.message = "" then "Failed to save" else e.message
  | none => "Failed to save"

/-- `addToList(book, listType)`.  Validates the book and the bucket name,
removes the identifier from every bucket, applies the bucket field policy,
inserts at the front of the target bucket, persists, and reports.  Note the
bucket-name guard also lets through any name whose upper-casing is a
`LIST_TYPES` key (for example `'READING'`); such a name reaches
`lists[listType].unshift` with `lists[listType]` undefined and throws. -/
def addToList (book : JsValue) (listType : String) (today : String) (now : Int)
    (st : AppState) : JsOut SvcResult AppState :=
  if !book.jsTruthy || !jsTruthyO (getField book "id") then
    .ok ⟨false, some "Invalid book data"⟩ st
  else if (listTypesGet (jsToUpper listType)).isNone && !listTypeValues.contains listType then
    .ok ⟨false, some "Invalid list type"⟩ st
  else
    let bookFields : Book := match book with | .obj fs => fs | _ => []
    let bookId := idStrB bookFields
    let lists1 := removeAllBuckets bookId st.lists
    let bookToAdd := prepareBook bookFields listType today
    match bucketsGet lists1 listType with
    | none =>
      .thrown "TypeError: cannot read properties of undefined" { st with lists := lists1 }
    | some target =>
      let lists2 := bucketsSet lists1 listType (bookToAdd :: target)
      let (sres, store1) := saveData st.storage "reading_lists" (listsToJs lists2) true now
      if sres.success then
        .ok ⟨true, none⟩ ⟨store1, lists2⟩
      else
        .ok ⟨false, some (saveFailMsg sres)⟩ ⟨store1, lists2⟩

/-- `lists.reading.find` followed by the in-place mutation of the found book:
returns the updated book together with the updated list, or `none` when no
entry matches. -/
def updateFirstById (id : String) (f : Book → Book) : List Book → Option (Book × List Book)
  | [] => none
  | b :: t =>
    if idStrB b = id then
      let b1 := f b
      some (b1, b1 :: t)
    else
      match updateFirstById id f t with
      | none => none
      | some (b1, t1) => some (b1, b :: t1)

/-- `updateProgress(bookId, progress)`: searches only the `reading` bucket,
clamps to `[0, 100]`, and on exactly 100 delegates to
`addToList(book, 'completed')`. -/
def updateProgress (bookId : String) (progress : Int) (today : String) (now : Int)
    (st : AppState) : JsOut SvcResult AppState :=
  let clamped : Int := max 0 (min 100 progress)
  match updateFirstById bookId (fun b => setF b "progress" (.num clamped)) st.lists.reading with
  | none => .ok ⟨false, some "Book not found in reading list"⟩ st
  | some (book1, reading1) =>
    let st1 : AppState := { st with lists := { st.lists with reading := reading1 } }
    if clamped = 100 then
      addToList (.obj book1) "completed" today now st1
    else
      let (sres, store1) := saveData st.storage "reading_lists" (listsToJs st1.lists) true now
      if sres.success then
        .ok ⟨true, none⟩ ⟨store1, st1.lists⟩
      else
        .ok ⟨false, some (saveFailMsg sres)⟩ ⟨store1, st1.lists⟩

example :
    (addToList (.obj [("id", .str "b1")]) "reading" "2024-01-01" 0
      ⟨⟨true, []⟩, ⟨[], [], []⟩⟩) =
    .ok ⟨true, none⟩
      ⟨⟨true, [("booktracker_reading_lists",
        .obj [("data", listsToJs ⟨[[("id", .str "b1"), ("progress", .num 0),
                                    ("startedDate", .str "2024-01-01")]], [], []⟩),
              ("timestamp", .num 0), ("version", .num 1)])]⟩,
       ⟨[[("id", .str "b1"), ("progress", .num 0), ("startedDate", .str "2024-01-01")]],
        [], []⟩⟩ := by rfl

/-! ## Remote Catalog Client (`src/unnamed/part_001`)

The client state (`state.requestCount`, `state.lastRequestTime`,
`state.cache`) is threaded explicitly; `Date.now()` is the explicit clock
`now`, advanced by the cooperative `delay` calls. -/

/-- The rate-limit block of `CONFIG` (`maxRequests` 10, `timeWindow` 1000,
`retryDelay` 1000, `maxRetries` 3) together with the cache TTL
(`CONFIG.cache.ttl`, 300000). -/
structure ApiCfg where
  maxRequests : Nat
  timeWindow : Int
  retryDelay : Int
  maxRetries : Nat
  ttl : Int
deriving Repr, DecidableEq

/-- The shipped `CONFIG` values. -/
def apiConfig : ApiCfg :=
  { maxRequests := 10, timeWindow := 1000, retryDelay := 1000, maxRetries := 3
    ttl := 5 * 60 * 1000 }

/-- The rate-limiter slice of the client state. -/
structure RateSt where
  requestCount : Nat
  lastRequestTime : Int
deriving Repr, DecidableEq

/-- One admitted network fetch: when it was issued and the
`lastRequestTime` of the window it was counted against. -/
structure FetchRec where
  time : Int
  windowStart : Int
deriving Repr, DecidableEq

/-- `canMakeRequest()`: resets the counter when the window has passed, then
admits while the counter is below the cap.  Returns the flag and the
(possibly reset) state. -/
def canMakeRequestF (cfg : ApiCfg) (s : RateSt) (now : Int) : Bool × RateSt :=
  let s1 := if now - s.lastRequestTime > cfg.timeWindow then
    { requestCount := 0, lastRequestTime := now } else s
  (s1.requestCount < cfg.maxRequests, s1)

/-- `waitForRateLimit()`: delays until the window resets, then clears the
counter.  Returns the state and the advanced clock. -/
def waitForRateLimitF (cfg : ApiCfg) (s : RateSt) (now : Int) : RateSt × Int :=
  let timeToWait := cfg.timeWindow - (now - s.lastRequestTime)
  let now1 := if timeToWait > 0 then now + timeToWait else now
  ({ requestCount := 0, lastRequestTime := now1 }, now1)

/-- `throttledFetch(url)`: wait if the limiter is saturated, count the
request, issue the fetch.  Every call issues exactly one fetch. -/
def throttledFetchF (cfg : ApiCfg) (s : RateSt) (now : Int) : RateSt × Int × FetchRec :=
  let (can, s1) := canMakeRequestF cfg s now
  let (s2, now2) := if can then (s1, now) else waitForRateLimitF cfg s1 now
  ({ s2 with requestCount := s2.requestCount + 1 }, now2,
   { time := now2, windowStart := s2.lastRequestTime })

/-- A sequence of `throttledFetch` calls, the i-th issued `gaps[i]` after the
previous call settled (gaps are the caller-side idle times; immediate
succession is all-zero gaps). -/
def runThrottled (cfg : ApiCfg) (s : RateSt) (now : Int) :
    List Int → RateSt × Int × List FetchRec
  | [] => (s, now, [])
  | g :: gs =>
    let step := throttledFetchF cfg s (now + g)
    let rest := runThrottled cfg step.1 step.2.1 gs
    (rest.1, rest.2.1, step.2.2 :: rest.2.2)

/-- Fetches of a trace counted against the window that started at `w`. -/
def countTag (w : Int) (recs : List FetchRec) : Nat :=
  recs.countP (fun r => r.windowStart = w)

/-- A cache entry `{ data, expiry }`. -/
structure CacheEntry where
  data : JsValue
  expiry : Int
deriving Repr

/-- The search/details cache, a map keyed by composite strings. -/
abbrev ApiCache := List (String × CacheEntry)

/-- `state.cache.get(key)`. -/
def cacheLookup (k : String) : ApiCache → Option CacheEntry
  | [] => none
  | (k', v) :: t => if k' = k then some v else cacheLookup k t

/-- `state.cache.delete(key)`. -/
def cacheDelete (k : String) (c : ApiCache) : ApiCache :=
  c.filter (fun kv => kv.1 ≠ k)

/-- `state.cache.set(key, entry)`. -/
def cacheSet (k : String) (v : CacheEntry) : ApiCache → ApiCache
  | [] => [(k, v)]
  | (k', v') :: t => if k' = k then (k, v) :: t else (k', v') :: cacheSet k v t

/-- `getFromCache(key)` (with `CONFIG.cache.enabled` true as shipped): absent
is a miss; an entry with `now > expiry` is logically absent and is evicted on
this read; otherwise its data is returned. -/
def getFromCacheF (now : Int) (k : String) (c : ApiCache) : Option JsValue × ApiCache :=
  match cacheLookup k c with
  | none => (none, c)
  | some e => if now > e.expiry then (none, cacheDelete k c) else (some e.data, c)

/-- `setCache(key, data)`: expiry is the write time plus the TTL. -/
def setCacheF (ttl : Int) (now : Int) (k : String) (data : JsValue) (c : ApiCache) : ApiCache :=
  cacheSet k { data := data, expiry := now + ttl } c

/-- The error shape `withRetry` discriminates on: HTTP status (when any) and
the `ApiError` code (when any). -/
structure ApiErr where
  status : Option Nat
  code : Option String
deriving Repr, DecidableEq

/-- `ErrorCodes.NOT_FOUND`. -/
def notFoundCode : String := "NOT_FOUND"

/-- A backend HTTP response to one attempt: `ok`/`status` of the `Response`,
and the normalized payload the happy path would assemble from its body.  (The
field-by-field normalization of the body is not needed by any claim and is
represented by the already-normalized `payload`.) -/
structure BackendResp where
  ok : Bool
  status : Nat
  payload : JsValue
deriving Repr

/-- The outcome `searchOpenLibrary` produces for one attempt: a non-ok
response throws a plain error carrying only the HTTP status — no `ApiError`
code, in particular not `NOT_FOUND` — and an ok response resolves to the
normalized result. -/
def searchOpenLibraryOutcome (r : BackendResp) : Except ApiErr JsValue :=
  if r.ok then .ok r.payload
  else .error { status := some r.status, code := none }

/-- The outcome `getOpenLibraryBookDetails` produces for one attempt: a 404
throws `ApiError('Book not found', 404, ErrorCodes.NOT_FOUND)`; any other
non-ok response throws a plain status-only error. -/
def getOpenLibraryBookDetailsOutcome (r : BackendResp) : Except ApiErr JsValue :=
  if r.ok then .ok r.payload
  else if r.status = 404 then .error { status := some 404, code := some notFoundCode }
  else .error { status := some r.status, code := none }

/-- The loop body of `withRetry(fn, retries)` from attempt `i` with
`remaining` retries still allowed: an error whose `code` is `NOT_FOUND` is
re-thrown at once; otherwise the loop delays `retryDelay * 2^i` and retries
until the retries are exhausted, then throws the last error.  Returns the
outcome, the number of attempts made, and the backoff delays waited. -/
def withRetryGo (fn : Nat → Except ApiErr JsValue) (retryDelay : Int) :
    Nat → Nat → Except ApiErr JsValue × Nat × List Int
  | i, 0 =>
    match fn i with
    | .ok a => (.ok a, 1, [])
    | .error e => (.error e, 1, [])
  | i, r + 1 =>
    match fn i with
    | .ok a => (.ok a, 1, [])
    | .error e =>
      if e.code = some notFoundCode then (.error e, 1, [])
      else
        let rec0 := withRetryGo fn retryDelay (i + 1) r
        (rec0.1, rec0.2.1 + 1, retryDelay * 2 ^ (i : Nat) :: rec0.2.2)

/-- `withRetry(fn, retries = CONFIG.rateLimit.maxRetries)`. -/
def withRetrySim (fn : Nat → Except ApiErr JsValue) (retryDelay : Int) (retries : Nat) :
    Except ApiErr JsValue × Nat × List Int :=
  withRetryGo fn retryDelay 0 retries

/-- The cache-plus-rate-limiter slice of the client state that `searchBooks`
touches. -/
structure NetState where
  cache : ApiCache
  rate : RateSt
deriving Repr

/-- The `withRetry` loop as run by `searchBooks` around
`searchOpenLibrary → fetchWithTimeout → throttledFetch`: each attempt issues
one throttled fetch (possibly waiting on the limiter), the i-th retry waits
`retryDelay * 2^i` first.  Returns the outcome, rate state, clock, and the
number of network fetches issued. -/
def withRetryNetGo (cfg : ApiCfg) (responses : Nat → BackendResp) :
    Nat → RateSt → Int → Nat → Except ApiErr JsValue × RateSt × Int × Nat
  | i, rs, now, 0 =>
    let step := throttledFetchF cfg rs now
    match searchOpenLibraryOutcome (responses i) with
    | .ok a => (.ok a, step.1, step.2.1, 1)
    | .error e => (.error e, step.1, step.2.1, 1)
  | i, rs, now, r + 1 =>
    let step := throttledFetchF cfg rs now
    match searchOpenLibraryOutcome (responses i) with
    | .ok a => (.ok a, step.1, step.2.1, 1)
    | .error e =>
      if e.code = some notFoundCode then (.error e, step.1, step.2.1, 1)
      else
        let now2 := step.2.1 + cfg.retryDelay * 2 ^ (i : Nat)
        let rec0 := withRetryNetGo cfg responses (i + 1) step.1 now2 r
        (rec0.1, rec0.2.1, rec0.2.2.1, rec0.2.2.2 + 1)

/-- `searchBooks(query, options)` for the open-library source: the composite
cache key short-circuits both the network and the rate limiter on a hit; a
miss runs the retry loop and caches a successful result under the write-time
expiry.  Returns the outcome, the client state, the clock, and the number of
network fetches the call issued. -/
def searchBooksM (cfg : ApiCfg) (st : NetState) (now : Int) (key : String)
    (responses : Nat → BackendResp) : Except ApiErr JsValue × NetState × Int × Nat :=
  let hit := getFromCacheF now key st.cache
  match hit.1 with
  | some d => (.ok d, { cache := hit.2, rate := st.rate }, now, 0)
  | none =>
    let res := withRetryNetGo cfg responses 0 st.rate now cfg.maxRetries
    match res.1 with
    | .ok r =>
      (.ok r, { cache := setCacheF cfg.ttl res.2.2.1 key r hit.2, rate := res.2.1 },
       res.2.2.1, res.2.2.2)
    | .error e => (.error e, { cache := hit.2, rate := res.2.1 }, res.2.2.1, res.2.2.2)

example :
    (withRetrySim (fun _ => searchOpenLibraryOutcome ⟨false, 404, .null⟩) 1000 3) =
      (.error ⟨some 404, none⟩, 4, [1000, 2000, 4000]) := by rfl
example :
    (withRetrySim (fun _ => getOpenLibraryBookDetailsOutcome ⟨false, 404, .null⟩) 1000 3) =
      (.error ⟨some 404, some "NOT_FOUND"⟩, 1, []) := by rfl
example :
    (runThrottled apiConfig ⟨0, 0⟩ 0 [0, 0, 0]).2.2 =
      [⟨0, 0⟩, ⟨0, 0⟩, ⟨0, 0⟩] := by rfl

/-! ## Helper lemmas -/

theorem getF_setF_self (b : Book) (n : String) (v : JsValue) :
    getF (setF b n v) n = some v := by
  induction b with
  | nil => simp [getF, setF]
  | cons kv t ih =>
    obtain ⟨k, w⟩ := kv
    by_cases h : k = n
    · simp [setF, h, getF]
    · simpa [setF, h, getF] using ih

theorem getF_setF_ne (b : Book) (n m : String) (v : JsValue) (h : m ≠ n) :
    getF (setF b n v) m = getF b m := by
  induction b with
  | nil => simp [getF, setF, Ne.symm h]
  | cons kv t ih =>
    obtain ⟨k, w⟩ := kv
    by_cases hk : k = n
    · subst hk
      simp [setF, getF, Ne.symm h]
    · simp only [setF, hk, reduceIte, getF, ih]

theorem getF_deleteF_self (b : Book) (n : String) :
    getF (deleteF b n) n = none := by
  induction b with
  | nil => simp [getF, deleteF]
  | cons kv t ih =>
    obtain ⟨k, w⟩ := kv
    by_cases h : k = n
    · simpa [deleteF, h, getF] using ih
    · simpa [deleteF, h, getF] using ih

theorem getF_deleteF_ne (b : Book) (n m : String) (h : m ≠ n) :
    getF (deleteF b n) m = getF b m := by
  induction b with
  | nil => simp [deleteF]
  | cons kv t ih =>
    obtain ⟨k, w⟩ := kv
    by_cases hk : k = n
    · subst hk
      simpa [deleteF, getF, Ne.symm h] using ih
    · simp only [deleteF, hk, reduceIte, getF, ih]

theorem idStrB_setF (b : Book) (n : String) (v : JsValue) (h : n ≠ "id") :
    idStrB (setF b n v) = idStrB b := by
  unfold idStrB
  rw [getF_setF_ne _ _ _ _ (Ne.symm h)]

theorem idStrB_deleteF (b : Book) (n : String) (h : n ≠ "id") :
    idStrB (deleteF b n) = idStrB b := by
  unfold idStrB
  rw [getF_deleteF_ne _ _ _ (Ne.symm h)]

theorem prepareBook_reading (b : Book) (today : String) :
    prepareBook b "reading" today =
      setF (setF b "progress" (jsOrDefault (getF b "progress") (.num 0)))
        "startedDate"
        (jsOrDefault
          (getF (setF b "progress" (jsOrDefault (getF b "progress") (.num 0))) "startedDate")
          (.str today)) := rfl

theorem prepareBook_completed (b : Book) (today : String) :
    prepareBook b "completed" today =
      deleteF (setF b "completedDate" (jsOrDefault (getF b "completedDate") (.str today)))
        "progress" := rfl

theorem prepareBook_toRead (b : Book) (today : String) :
    prepareBook b "toRead" today =
      deleteF (deleteF (setF b "addedDate" (jsOrDefault (getF b "addedDate") (.str today)))
          "progress")
        "completedDate" := rfl

theorem idStrB_prepareBook (b : Book) (lt today : String) :
    idStrB (prepareBook b lt today) = idStrB b := by
  unfold prepareBook
  by_cases h1 : lt = "reading"
  · rw [if_pos h1, idStrB_setF _ _ _ (by decide), idStrB_setF _ _ _ (by decide)]
  · rw [if_neg h1]
    by_cases h2 : lt = "completed"
    · rw [if_pos h2, idStrB_deleteF _ _ (by decide), idStrB_setF _ _ _ (by decide)]
    · rw [if_neg h2, idStrB_deleteF _ _ (by decide), idStrB_deleteF _ _ (by decide),
        idStrB_setF _ _ _ (by decide)]

theorem getF_prepareBook_completed_progress (b : Book) (today : String) :
    getF (prepareBook b "completed" today) "progress" = none := by
  rw [prepareBook_completed]
  exact getF_deleteF_self _ _

theorem getF_prepareBook_completed_date (b : Book) (today : String) :
    getF (prepareBook b "completed" today) "completedDate" =
      some (jsOrDefault (getF b "completedDate") (.str today)) := by
  rw [prepareBook_completed, getF_deleteF_ne _ _ _ (by decide), getF_setF_self]

theorem countById_cons (id : String) (b : Book) (l : List Book) :
    countById id (b :: l) = (if idStrB b = id then 1 else 0) + countById id l := by
  by_cases h : idStrB b = id
  · simp [countById, List.countP_cons, h]
    omega
  · simp [countById, List.countP_cons, h]

theorem countById_removeFirstById (id : String) (l : List Book) :
    countById id (removeFirstById id l) = countById id l - 1 := by
  induction l with
  | nil => simp [countById, removeFirstById]
  | cons b t ih =>
    by_cases h : idStrB b = id
    · simp [removeFirstById, h, countById_cons]
    · simp only [removeFirstById, h, reduceIte, countById_cons, ih]
      omega

theorem updateFirstById_eq_none (id : String) (f : Book → Book) (l : List Book)
    (h : ∀ b ∈ l, idStrB b ≠ id) :
    updateFirstById id f l = none := by
  induction l with
  | nil => rfl
  | cons b t ih =>
    have hb : idStrB b ≠ id := h b (by simp)
    simp only [updateFirstById, hb, reduceIte]
    rw [ih (fun x hx => h x (by simp [hx]))]

theorem updateFirstById_some (id : String) (f : Book → Book) (l : List Book)
    (b1 : Book) (l1 : List Book)
    (h : updateFirstById id f l = some (b1, l1)) :
    ∃ b, idStrB b = id ∧ b1 = f b := by
  induction l generalizing l1 with
  | nil => simp [updateFirstById] at h
  | cons b t ih =>
    by_cases hb : idStrB b = id
    · simp only [updateFirstById, hb, reduceIte, Option.some.injEq, Prod.mk.injEq] at h
      exact ⟨b, hb, h.1.symm⟩
    · simp only [updateFirstById, hb, reduceIte] at h
      cases hrec : updateFirstById id f t with
      | none => rw [hrec] at h; simp at h
      | some p =>
        obtain ⟨b2, t2⟩ := p
        rw [hrec] at h
        simp only [Option.some.injEq, Prod.mk.injEq] at h
        obtain ⟨hb1, _⟩ := h
        subst hb1
        exact ih t2 hrec

theorem countById_updateFirstById (id j : String) (f : Book → Book) (l : List Book)
    (b1 : Book) (l1 : List Book)
    (hf : ∀ b, idStrB (f b) = idStrB b)
    (h : updateFirstById id f l = some (b1, l1)) :
    countById j l1 = countById j l := by
  induction l generalizing l1 with
  | nil => simp [updateFirstById] at h
  | cons b t ih =>
    by_cases hb : idStrB b = id
    · simp only [updateFirstById, hb, reduceIte, Option.some.injEq, Prod.mk.injEq] at h
      obtain ⟨hb1, hl1⟩ := h
      subst hl1
      rw [countById_cons, countById_cons, hf]
    · simp only [updateFirstById, hb, reduceIte] at h
      cases hrec : updateFirstById id f t with
      | none => rw [hrec] at h; simp at h
      | some p =>
        obtain ⟨b2, t2⟩ := p
        rw [hrec] at h
        simp only [Option.some.injEq, Prod.mk.injEq] at h
        obtain ⟨hb1, hl1⟩ := h
        subst hl1
        rw [countById_cons, countById_cons, ih t2 (by rw [hrec, hb1])]

theorem updateFirstById_count_pos (id : String) (f : Book → Book) (l : List Book)
    (b1 : Book) (l1 : List Book)
    (h : updateFirstById id f l = some (b1, l1)) :
    1 ≤ countById id l := by
  induction l generalizing l1 with
  | nil => simp [updateFirstById] at h
  | cons b t ih =>
    by_cases hb : idStrB b = id
    · rw [countById_cons]
      simp [hb]
    · simp only [updateFirstById, hb, reduceIte] at h
      cases hrec : updateFirstById id f t with
      | none => rw [hrec] at h; simp at h
      | some p =>
        obtain ⟨b2, t2⟩ := p
        rw [hrec] at h
        simp only [Option.some.injEq, Prod.mk.injEq] at h
        rw [countById_cons]
        have := ih t2 (by rw [hrec, h.1])
        omega

theorem lsGet_lsSet_self (k : String) (v : JsValue) (items : List (String × JsValue)) :
    lsGet k (lsSet k v items) = some v := by
  induction items with
  | nil => simp [lsGet, lsSet]
  | cons kv t ih =>
    obtain ⟨k', v'⟩ := kv
    by_cases h : k' = k
    · simp [lsSet, h, lsGet]
    · simp only [lsSet, h, reduceIte, lsGet, ih]

theorem lsGet_removeNsKeys (k : String) (items : List (String × JsValue)) :
    lsGet k (removeNsKeys items) =
      (if startsWithNs k then none else lsGet k items) := by
  induction items with
  | nil => cases hks : startsWithNs k <;> simp [lsGet, removeNsKeys, hks]
  | cons kv t ih =>
    obtain ⟨k', v'⟩ := kv
    cases hp : startsWithNs k' with
    | true =>
      rw [removeNsKeys, if_pos hp, ih]
      cases hks : startsWithNs k with
      | true => simp
      | false =>
        simp only [Bool.false_eq_true, if_false]
        have hk : k' ≠ k := fun hh => by rw [hh, hks] at hp; exact Bool.noConfusion hp
        rw [lsGet, if_neg hk]
    | false =>
      rw [removeNsKeys, if_neg (by simp [hp])]
      by_cases hk : k' = k
      · subst hk
        have hks : startsWithNs k' = false := hp
        rw [if_neg (by simp [hks]), lsGet, if_pos rfl, lsGet, if_pos rfl]
      · rw [lsGet, if_neg hk, ih, lsGet, if_neg hk]

/-- The versioned envelope `saveData` writes for the reading lists. -/
def savedEnvelope (L : ReadingLists) (now : Int) : JsValue :=
  .obj [("data", listsToJs L), ("timestamp", .num now), ("version", .num 1)]

/-- The bucket structure after a successful `addToList`: the identifier is
removed from every bucket and the prepared book is pushed onto the target. -/
def addedLists (book : Book) (lt today : String) (l : ReadingLists) : ReadingLists :=
  bucketsSet (removeAllBuckets (idStrB book) l) lt
    (prepareBook book lt today ::
      (bucketsGet (removeAllBuckets (idStrB book) l) lt).getD [])

theorem saveData_readingLists (items : List (String × JsValue)) (L : ReadingLists) (now : Int) :
    saveData ⟨true, items⟩ "reading_lists" (listsToJs L) true now =
      (⟨true, none⟩,
       ⟨true, lsSet (getFullKey "reading_lists") (savedEnvelope L now) items⟩) := rfl

theorem addToList_eq (book : Book) (lt today : String) (now : Int) (st : AppState)
    (hid : jsTruthyO (getF book "id") = true)
    (hlt : lt = "reading" ∨ lt = "toRead" ∨ lt = "completed")
    (hav : st.storage.available = true) :
    addToList (.obj book) lt today now st =
      .ok ⟨true, none⟩
        ⟨⟨true, lsSet (getFullKey "reading_lists")
            (savedEnvelope (addedLists book lt today st.lists) now) st.storage.items⟩,
         addedLists book lt today st.lists⟩ := by
  obtain ⟨⟨sa, si⟩, L⟩ := st
  simp only at hav
  subst hav
  have hg1 : (!(JsValue.obj book).jsTruthy || !jsTruthyO (getField (.obj book) "id")) = false := by
    simp [JsValue.jsTruthy, getField, hid]
  rcases hlt with h | h | h <;>
    · subst h
      unfold addToList
      rw [hg1]
      rw [if_neg (show ¬ (false = true) by decide)]
      rw [if_neg (by decide)]
      simp only [bucketsGet, String.reduceEq, reduceIte]
      rw [saveData_readingLists]
      simp [addedLists, bucketsGet, bucketsSet]

theorem countById_le_one_of_lists {L : ReadingLists} {id : String}
    (h : listsCountById L id ≤ 1) :
    countById id L.reading ≤ 1 ∧ countById id L.toRead ≤ 1 ∧
      countById id L.completed ≤ 1 := by
  unfold listsCountById at h
  omega

theorem addedLists_reading (book : Book) (today : String) (L : ReadingLists) :
    addedLists book "reading" today L =
      ⟨prepareBook book "reading" today :: removeFirstById (idStrB book) L.reading,
       removeFirstById (idStrB book) L.toRead,
       removeFirstById (idStrB book) L.completed⟩ := rfl

theorem addedLists_toRead (book : Book) (today : String) (L : ReadingLists) :
    addedLists book "toRead" today L =
      ⟨removeFirstById (idStrB book) L.reading,
       prepareBook book "toRead" today :: removeFirstById (idStrB book) L.toRead,
       removeFirstById (idStrB book) L.completed⟩ := rfl

theorem addedLists_completed (book : Book) (today : String) (L : ReadingLists) :
    addedLists book "completed" today L =
      ⟨removeFirstById (idStrB book) L.reading,
       removeFirstById (idStrB book) L.toRead,
       prepareBook book "completed" today :: removeFirstById (idStrB book) L.completed⟩ := rfl

theorem countById_prepare_cons (book : Book) (lt today : String) (xs : List Book) :
    countById (idStrB book) (prepareBook book lt today :: xs) =
      1 + countById (idStrB book) xs := by
  rw [countById_cons, idStrB_prepareBook]
  simp

/-- **C1.**  For a book carrying an identifier and a recognized bucket, a
successful `addToList(book, bucket)` removes the identifier from every bucket
and pushes the prepared book onto the target bucket, so the identifier ends up
in exactly one bucket; and `addToList(book, 'reading')` followed by
`addToList(book, 'completed')` leaves the book only in `completed`, with the
`progress` field stripped. -/
theorem C1_addToList_single_bucket
    (book : Book) (lt today : String) (now : Int) (st : AppState)
    (hid : jsTruthyO (getF book "id") = true)
    (hlt : lt = "reading" ∨ lt = "toRead" ∨ lt = "completed")
    (hav : st.storage.available = true)
    (huniq : listsCountById st.lists (idStrB book) ≤ 1) :
    (∃ st1, addToList (.obj book) lt today now st = .ok ⟨true, none⟩ st1 ∧
      bucketsGet st1.lists lt = some (prepareBook book lt today ::
        removeFirstById (idStrB book) ((bucketsGet st.lists lt).getD [])) ∧
      (∀ bt, (bt = "reading" ∨ bt = "toRead" ∨ bt = "completed") → bt ≠ lt →
        bucketsGet st1.lists bt =
          some (removeFirstById (idStrB book) ((bucketsGet st.lists bt).getD []))) ∧
      listsCountById st1.lists (idStrB book) = 1) ∧
    (∃ st1 st2, addToList (.obj book) "reading" today now st = .ok ⟨true, none⟩ st1 ∧
      addToList (.obj book) "completed" today now st1 = .ok ⟨true, none⟩ st2 ∧
      countById (idStrB book) st2.lists.completed = 1 ∧
      countById (idStrB book) st2.lists.reading = 0 ∧
      countById (idStrB book) st2.lists.toRead = 0 ∧
      ∃ rest, st2.lists.completed = prepareBook book "completed" today :: rest ∧
        getF (prepareBook book "completed" today) "progress" = none) := by
  obtain ⟨hr, ht, hc⟩ := countById_le_one_of_lists huniq
  constructor
  · refine ⟨_, addToList_eq book lt today now st hid hlt hav, ?_, ?_, ?_⟩
    · rcases hlt with h | h | h <;> subst h
      · rw [addedLists_reading]; simp [bucketsGet]
      · rw [addedLists_toRead]; simp [bucketsGet]
      · rw [addedLists_completed]; simp [bucketsGet]
    · intro bt hbt hne
      rcases hlt with h | h | h <;> subst h <;>
        rcases hbt with hb | hb | hb <;> subst hb <;>
          first
          | exact absurd rfl hne
          | · rw [addedLists_reading]; simp [bucketsGet]
          | · rw [addedLists_toRead]; simp [bucketsGet]
          | · rw [addedLists_completed]; simp [bucketsGet]
    · rcases hlt with h | h | h <;> subst h
      · rw [addedLists_reading]
        simp only [listsCountById, countById_prepare_cons, countById_removeFirstById]
        omega
      · rw [addedLists_toRead]
        simp only [listsCountById, countById_prepare_cons, countById_removeFirstById]
        omega
      · rw [addedLists_completed]
        simp only [listsCountById, countById_prepare_cons, countById_removeFirstById]
        omega
  · have h1 := addToList_eq book "reading" today now st hid (Or.inl rfl) hav
    set L1 : ReadingLists := addedLists book "reading" today st.lists with hL1
    have h2 := addToList_eq book "completed" today now
      ⟨⟨true, lsSet (getFullKey "reading_lists")
          (savedEnvelope L1 now) st.storage.items⟩, L1⟩
      hid (Or.inr (Or.inr rfl)) rfl
    refine ⟨_, _, h1, h2, ?_, ?_, ?_, ?_⟩
    · rw [addedLists_completed, hL1, addedLists_reading]
      simp only [countById_prepare_cons, countById_removeFirstById]
      omega
    · rw [addedLists_completed, hL1, addedLists_reading]
      simp only [countById_prepare_cons, countById_removeFirstById]
      omega
    · rw [addedLists_completed, hL1, addedLists_reading]
      simp only [countById_prepare_cons, countById_removeFirstById]
      omega
    · refine ⟨removeFirstById (idStrB book) L1.completed, ?_,
        getF_prepareBook_completed_progress book today⟩
      show (addedLists book "completed" today L1).completed = _
      rw [addedLists_completed]

/-- Concrete book for the C1 witness. -/
def c1book : Book := [("id", .str "b1")]

/-- Concrete pre-state for the C1 witness: the identifier currently lives in
the `completed` bucket. -/
def c1st : AppState :=
  ⟨⟨true, []⟩, ⟨[], [], [[("id", .str "b1"), ("completedDate", .str "2023-12-20")]]⟩⟩

/-- Witness instantiating C1 at a concrete book and state. -/
theorem C1_addToList_single_bucket_witness :
    jsTruthyO (getF c1book "id") = true ∧
    c1st.storage.available = true ∧
    listsCountById c1st.lists (idStrB c1book) ≤ 1 ∧
    ((∃ st1, addToList (.obj c1book) "reading" "2024-01-02" 5 c1st = .ok ⟨true, none⟩ st1 ∧
      bucketsGet st1.lists "reading" = some (prepareBook c1book "reading" "2024-01-02" ::
        removeFirstById (idStrB c1book) ((bucketsGet c1st.lists "reading").getD [])) ∧
      (∀ bt, (bt = "reading" ∨ bt = "toRead" ∨ bt = "completed") → bt ≠ "reading" →
        bucketsGet st1.lists bt =
          some (removeFirstById (idStrB c1book) ((bucketsGet c1st.lists bt).getD []))) ∧
      listsCountById st1.lists (idStrB c1book) = 1) ∧
    (∃ st1 st2,
      addToList (.obj c1book) "reading" "2024-01-02" 5 c1st = .ok ⟨true, none⟩ st1 ∧
      addToList (.obj c1book) "completed" "2024-01-02" 5 st1 = .ok ⟨true, none⟩ st2 ∧
      countById (idStrB c1book) st2.lists.completed = 1 ∧
      countById (idStrB c1book) st2.lists.reading = 0 ∧
      countById (idStrB c1book) st2.lists.toRead = 0 ∧
      ∃ rest, st2.lists.completed = prepareBook c1book "completed" "2024-01-02" :: rest ∧
        getF (prepareBook c1book "completed" "2024-01-02") "progress" = none)) :=
  ⟨by decide, rfl, by decide,
   C1_addToList_single_bucket c1book "reading" "2024-01-02" 5 c1st
     (by decide) (Or.inl rfl) rfl (by decide)⟩

/-- **C4.**  For a book present in the `reading` bucket, `updateProgress`
stores the clamped progress on the found book; clamping to exactly 100
delegates to `addToList(book, 'completed')`, which removes the book from
`reading` and pushes it onto `completed` with `completedDate` set and
`progress` dropped; any other clamped value updates in place and succeeds. -/
theorem C4_updateProgress_clamp_complete
    (bookId : String) (v : Int) (today : String) (now : Int) (st : AppState)
    (b1 : Book) (reading1 : List Book)
    (hfind : updateFirstById bookId
      (fun b => setF b "progress" (.num (max 0 (min 100 v)))) st.lists.reading
        = some (b1, reading1))
    (hid : jsTruthyO (getF b1 "id") = true)
    (hav : st.storage.available = true)
    (huniq : listsCountById st.lists bookId ≤ 1) :
    (getF b1 "progress" = some (.num (max 0 (min 100 v))) ∧
      0 ≤ max 0 (min 100 v) ∧ max 0 (min 100 v) ≤ 100) ∧
    (max 0 (min 100 v) = 100 →
      ∃ st2, updateProgress bookId v today now st = .ok ⟨true, none⟩ st2 ∧
        st2.lists.completed =
          prepareBook b1 "completed" today :: removeFirstById bookId st.lists.completed ∧
        countById bookId st2.lists.reading = 0 ∧
        getF (prepareBook b1 "completed" today) "progress" = none ∧
        (getF (prepareBook b1 "completed" today) "completedDate").isSome = true) ∧
    (max 0 (min 100 v) ≠ 100 →
      ∃ store2, updateProgress bookId v today now st =
        .ok ⟨true, none⟩ ⟨store2, { st.lists with reading := reading1 }⟩) := by
  obtain ⟨⟨sa, si⟩, L⟩ := st
  simp only at hav hfind huniq
  subst hav
  obtain ⟨b0, hb0id, hb1⟩ := updateFirstById_some _ _ _ _ _ hfind
  have hprog : ∀ b : Book, idStrB (setF b "progress" (.num (max 0 (min 100 v)))) = idStrB b :=
    fun b => idStrB_setF b _ _ (by decide)
  have hid1 : idStrB b1 = bookId := by rw [hb1, hprog, hb0id]
  have hcount1 : countById bookId reading1 = countById bookId L.reading :=
    countById_updateFirstById _ _ _ _ _ _ hprog hfind
  have hcpos : 1 ≤ countById bookId L.reading :=
    updateFirstById_count_pos _ _ _ _ _ hfind
  obtain ⟨hr, ht, hc⟩ := @countById_le_one_of_lists L bookId huniq
  refine ⟨⟨?_, le_max_left 0 _, max_le (by norm_num) (min_le_left 100 v)⟩, ?_, ?_⟩
  · rw [hb1, getF_setF_self]
  · intro h100
    simp only [updateProgress, hfind]
    rw [if_pos h100]
    have hadd := addToList_eq b1 "completed" today now
      ⟨⟨true, si⟩, { L with reading := reading1 }⟩ hid (Or.inr (Or.inr rfl)) rfl
    refine ⟨_, hadd, ?_, ?_, getF_prepareBook_completed_progress b1 today, ?_⟩
    · show (addedLists b1 "completed" today { L with reading := reading1 }).completed = _
      rw [addedLists_completed, hid1]
    · show countById bookId (addedLists b1 "completed" today
        { L with reading := reading1 }).reading = 0
      rw [addedLists_completed, hid1]
      simp only [countById_removeFirstById]
      omega
    · rw [getF_prepareBook_completed_date]
      rfl
  · intro hne
    simp only [updateProgress, hfind]
    rw [if_neg hne, saveData_readingLists]
    exact ⟨_, rfl⟩

/-- Concrete pre-state for the C4 witness: one book with progress 40 in the
`reading` bucket. -/
def c4st : AppState :=
  ⟨⟨true, []⟩, ⟨[[("id", .str "b3"), ("progress", .num 40)]], [], []⟩⟩

/-- Witness instantiating C4 at a concrete state with `v = 150` (clamped to
100, hence the automatic move to `completed`). -/
theorem C4_updateProgress_clamp_complete_witness :
    updateFirstById "b3"
      (fun b => setF b "progress" (.num (max 0 (min 100 150)))) c4st.lists.reading =
      some ([("id", .str "b3"), ("progress", .num 100)],
            [[("id", .str "b3"), ("progress", .num 100)]]) ∧
    c4st.storage.available = true ∧
    listsCountById c4st.lists "b3" ≤ 1 ∧
    ((getF [("id", JsValue.str "b3"), ("progress", JsValue.num 100)] "progress" =
        some (.num (max 0 (min 100 150))) ∧
      0 ≤ max 0 (min 100 (150 : Int)) ∧ max 0 (min 100 (150 : Int)) ≤ 100) ∧
    (max 0 (min 100 (150 : Int)) = 100 →
      ∃ st2, updateProgress "b3" 150 "2024-01-02" 5 c4st = .ok ⟨true, none⟩ st2 ∧
        st2.lists.completed =
          prepareBook [("id", .str "b3"), ("progress", .num 100)] "completed" "2024-01-02" ::
            removeFirstById "b3" c4st.lists.completed ∧
        countById "b3" st2.lists.reading = 0 ∧
        getF (prepareBook [("id", .str "b3"), ("progress", .num 100)] "completed" "2024-01-02")
          "progress" = none ∧
        (getF (prepareBook [("id", .str "b3"), ("progress", .num 100)] "completed" "2024-01-02")
          "completedDate").isSome = true) ∧
    (max 0 (min 100 (150 : Int)) ≠ 100 →
      ∃ store2, updateProgress "b3" 150 "2024-01-02" 5 c4st =
        .ok ⟨true, none⟩ ⟨store2, { c4st.lists with reading :=
          [[("id", .str "b3"), ("progress", .num 100)]] }⟩)) :=
  ⟨rfl, rfl, by decide,
   C4_updateProgress_clamp_complete "b3" 150 "2024-01-02" 5 c4st
     [("id", .str "b3"), ("progress", .num 100)]
     [[("id", .str "b3"), ("progress", .num 100)]]
     rfl (by decide) rfl (by decide)⟩

/-- **C10.**  `updateProgress` searches only the `reading` bucket: when no
entry of `reading` carries the identifier (wherever else it may live), the
call fails with the book-not-found message and returns the state — buckets
and persisted storage — unchanged. -/
theorem C10_updateProgress_only_reading
    (bookId : String) (v : Int) (today : String) (now : Int) (st : AppState)
    (h : ∀ b ∈ st.lists.reading, idStrB b ≠ bookId) :
    updateProgress bookId v today now st =
      .ok ⟨false, some "Book not found in reading list"⟩ st := by
  simp only [updateProgress]
  rw [updateFirstById_eq_none _ _ _ h]

/-- Concrete pre-state for the C10 witness: the identifier lives only in
`toRead`. -/
def c10st : AppState :=
  ⟨⟨true, []⟩, ⟨[], [[("id", .str "b2")]], []⟩⟩

/-- Witness instantiating C10 at a concrete state. -/
theorem C10_updateProgress_only_reading_witness :
    (∀ b ∈ c10st.lists.reading, idStrB b ≠ "b2") ∧
    updateProgress "b2" 50 "2024-01-02" 5 c10st =
      .ok ⟨false, some "Book not found in reading list"⟩ c10st :=
  ⟨by simp [c10st], C10_updateProgress_only_reading "b2" 50 "2024-01-02" 5 c10st
    (by simp [c10st])⟩

/-! ## Claims about the Persistence Service -/

/-- **C2.**  With the substrate operational, saving a datum that violates the
registered schema of its key (validation enabled) fails with code
`VALIDATION_FAILED` and leaves the whole store — in particular the value
previously stored under that key — unchanged. -/
theorem C2_saveData_validation_failed
    (st : LocalStorage) (key : String) (sch : Schema) (data : JsValue) (now : Int)
    (hs : schemas key = some sch)
    (hv : (validateData data sch).valid = false)
    (hav : st.available = true) :
    (saveData st key data true now).1.success = false ∧
    (∃ e, (saveData st key data true now).1.error = some e ∧
      e.code = "VALIDATION_FAILED") ∧
    (saveData st key data true now).2 = st := by
  have hvf : saveValidationErrors key data true = some (validateData data sch).errors := by
    simp only [saveValidationErrors, hs, if_true]
    rw [if_neg (by simp [hv])]
  obtain ⟨sa, si⟩ := st
  simp only at hav
  subst hav
  rw [saveData, if_neg (by simp), hvf]
  exact ⟨rfl, ⟨_, rfl, rfl⟩, rfl⟩

/-- Witness instantiating C2: an invalid `reading_lists` value against a store
already holding data under that key. -/
theorem C2_saveData_validation_failed_witness :
    schemas "reading_lists" = some ⟨some "object",
      some [("reading", ⟨some "array", none⟩), ("toRead", ⟨some "array", none⟩),
            ("completed", ⟨some "array", none⟩)], none⟩ ∧
    (validateData (.obj [("reading", .str "not an array")]) ⟨some "object",
      some [("reading", ⟨some "array", none⟩), ("toRead", ⟨some "array", none⟩),
            ("completed", ⟨some "array", none⟩)], none⟩).valid = false ∧
    ((saveData ⟨true, [(getFullKey "reading_lists", .str "old")]⟩ "reading_lists"
        (.obj [("reading", .str "not an array")]) true 7).1.success = false ∧
     (∃ e, (saveData ⟨true, [(getFullKey "reading_lists", .str "old")]⟩ "reading_lists"
        (.obj [("reading", .str "not an array")]) true 7).1.error = some e ∧
       e.code = "VALIDATION_FAILED") ∧
     (saveData ⟨true, [(getFullKey "reading_lists", .str "old")]⟩ "reading_lists"
        (.obj [("reading", .str "not an array")]) true 7).2 =
       ⟨true, [(getFullKey "reading_lists", .str "old")]⟩) :=
  ⟨rfl, rfl,
   C2_saveData_validation_failed ⟨true, [(getFullKey "reading_lists", .str "old")]⟩
     "reading_lists" _ (.obj [("reading", .str "not an array")]) 7 rfl rfl rfl⟩

/-- **C3.**  A successful `saveData(k, v)` immediately followed by
`loadData(k)` yields success with data deep-equal to `v` (and the write-time
timestamp from the envelope). -/
theorem C3_save_load_roundtrip
    (st : LocalStorage) (key : String) (v : JsValue) (validate : Bool) (now : Int)
    (d : JsValue)
    (h : (saveData st key v validate now).1.success = true) :
    loadData (saveData st key v validate now).2 key d =
      { success := true, data := v, timestamp := some (.num now), error := none } := by
  obtain ⟨sa, si⟩ := st
  cases sa with
  | false => rw [saveData, if_pos rfl] at h; exact absurd h (by simp)
  | true =>
    rw [saveData, if_neg (by simp)] at h ⊢
    cases hvf : saveValidationErrors key v validate with
    | some errs => rw [hvf] at h; exact absurd h (by simp)
    | none =>
      show loadData ⟨true, lsSet (getFullKey key)
          (.obj [("data", v), ("timestamp", .num now), ("version", .num 1)]) si⟩ key d = _
      rw [loadData, if_neg (by simp), lsGet_lsSet_self]
      rfl

/-- Witness instantiating C3 at a concrete key and value. -/
theorem C3_save_load_roundtrip_witness :
    (saveData ⟨true, []⟩ "user_stats"
        (.obj [("booksRead", .num 42)]) true 9).1.success = true ∧
    loadData (saveData ⟨true, []⟩ "user_stats"
        (.obj [("booksRead", .num 42)]) true 9).2 "user_stats" .null =
      { success := true, data := .obj [("booksRead", .num 42)]
        timestamp := some (.num 9), error := none } :=
  ⟨rfl, C3_save_load_roundtrip ⟨true, []⟩ "user_stats"
    (.obj [("booksRead", .num 42)]) true 9 .null rfl⟩

/-- **C9.**  A successful `clearAllData()` removes exactly the keys carrying
the application namespace: afterwards every namespaced key is absent, and
every non-namespaced key still resolves to its previous value. -/
theorem C9_clearAllData_only_namespace
    (st : LocalStorage) (hav : st.available = true) :
    (clearAllData st).1 = ⟨true, none⟩ ∧
    (∀ k, startsWithNs k = true → lsGet k (clearAllData st).2.items = none) ∧
    (∀ k, startsWithNs k = false →
      lsGet k (clearAllData st).2.items = lsGet k st.items) := by
  obtain ⟨sa, si⟩ := st
  simp only at hav
  subst hav
  rw [clearAllData, if_neg (by simp)]
  refine ⟨rfl, ?_, ?_⟩
  · intro k hk
    show lsGet k (removeNsKeys si) = none
    rw [lsGet_removeNsKeys, if_pos hk]
  · intro k hk
    show lsGet k (removeNsKeys si) = lsGet k si
    rw [lsGet_removeNsKeys, if_neg (by simp [hk])]

/-- Witness instantiating C9 on a substrate holding one namespaced and one
foreign key. -/
theorem C9_clearAllData_only_namespace_witness :
    (clearAllData ⟨true, [("booktracker_user_stats", .num 1), ("other_app", .str "keep")]⟩).1 =
      ⟨true, none⟩ ∧
    lsGet "booktracker_user_stats"
      (clearAllData ⟨true, [("booktracker_user_stats", .num 1),
        ("other_app", .str "keep")]⟩).2.items = none ∧
    lsGet "other_app"
      (clearAllData ⟨true, [("booktracker_user_stats", .num 1),
        ("other_app", .str "keep")]⟩).2.items =
      lsGet "other_app" [("booktracker_user_stats", .num 1), ("other_app", .str "keep")] :=
  ⟨(C9_clearAllData_only_namespace _ rfl).1,
   (C9_clearAllData_only_namespace _ rfl).2.1 "booktracker_user_stats" (by decide),
   (C9_clearAllData_only_namespace _ rfl).2.2 "other_app" (by decide)⟩

/-! ## Claims about the Reading List service -/

/-- **C5** (code bug).  The spec says a bucket name other than `reading`,
`toRead`, `completed` yields the failure `{ success: false, error: 'Invalid
list type' }` with no exception and no mutation.  The guard
`!LIST_TYPES[listType.toUpperCase()] && !values.includes(listType)` lets
`'READING'` through (its upper-casing is the `LIST_TYPES` key `READING`), so
the call reaches `lists['READING'].unshift` — `undefined.unshift` — and
throws a `TypeError`, after the removal loop has already deleted the book
from its bucket. -/
theorem C5_addToList_uppercase_name_throws :
    ("READING" = "reading" ∨ "READING" = "toRead" ∨ "READING" = "completed" → False) ∧
    addToList (.obj [("id", .str "b1")]) "READING" "2024-01-02" 0
        ⟨⟨true, []⟩, ⟨[[("id", .str "b1"), ("progress", .num 10)]], [], []⟩⟩ =
      .thrown "TypeError: cannot read properties of undefined"
        ⟨⟨true, []⟩, ⟨[], [], []⟩⟩ :=
  ⟨by decide, rfl⟩

/-! ## Claims about the Remote Catalog Client -/

theorem withRetryGo_persistent (fn : Nat → Except ApiErr JsValue) (e : Nat → ApiErr)
    (retryDelay : Int) (hfn : ∀ i, fn i = .error (e i))
    (hnf : ∀ i, (e i).code ≠ some notFoundCode) :
    ∀ (r i : Nat), withRetryGo fn retryDelay i r =
      (.error (e (i + r)), r + 1,
       (List.range r).map (fun j => retryDelay * 2 ^ (i + j))) := by
  intro r
  induction r with
  | zero =>
    intro i
    simp [withRetryGo, hfn i]
  | succ r ih =>
    intro i
    rw [withRetryGo, hfn i]
    simp only
    rw [if_neg (hnf i), ih (i + 1)]
    simp only [List.range_succ_eq_map, List.map_cons, List.map_map, Prod.mk.injEq,
      Except.error.injEq, List.cons.injEq]
    refine ⟨by rw [show i + 1 + r = i + (r + 1) from by omega], trivial,
      by rw [Nat.add_zero], ?_⟩
    apply List.map_congr_left
    intro j _
    simp only [Function.comp_apply]
    rw [show i + 1 + j = i + (j + 1) from by omega]

/-- **C6 counterexample.**  A simulated backend that answers every search
attempt with HTTP 404 — a response that signifies "not found" — is retried in
full: `searchOpenLibrary` throws a plain status-only error without the
`NOT_FOUND` code, so `withRetry` performs `maxRetries + 1 = 4` backend
attempts (with backoff delays 1000, 2000, 4000), not the single attempt the
claim requires. -/
theorem C6_search_not_found_retried :
    withRetrySim (fun _ => searchOpenLibraryOutcome ⟨false, 404, .null⟩)
        apiConfig.retryDelay apiConfig.maxRetries =
      (.error ⟨some 404, none⟩, 4, [1000, 2000, 4000]) ∧
    (4 : Nat) ≠ 1 :=
  ⟨rfl, by decide⟩

/-- **C6 (amended).**  A failure carrying the `NOT_FOUND` error code — as
thrown by the detail fetches on HTTP 404 — causes exactly one backend attempt
and is never retried; every other failure, including an HTTP 404 from the
search endpoint (whose thrown error carries only the status, not the
`NOT_FOUND` code), is retried with exponentially increasing backoff delays
`retryDelay * 2^i` up to the configured maximum number of retries before the
final error is raised. -/
theorem C6_retry_not_found_policy :
    (∀ (fn : Nat → Except ApiErr JsValue) (retryDelay : Int) (retries : Nat) (e : ApiErr),
      fn 0 = .error e → e.code = some notFoundCode →
      withRetrySim fn retryDelay retries = (.error e, 1, [])) ∧
    (∀ (fn : Nat → Except ApiErr JsValue) (retryDelay : Int) (retries : Nat)
        (e : Nat → ApiErr),
      (∀ i, fn i = .error (e i)) → (∀ i, (e i).code ≠ some notFoundCode) →
      withRetrySim fn retryDelay retries =
        (.error (e retries), retries + 1,
         (List.range retries).map (fun i => retryDelay * 2 ^ i))) ∧
    (∀ r : BackendResp, r.ok = false → r.status = 404 →
      getOpenLibraryBookDetailsOutcome r = .error ⟨some 404, some notFoundCode⟩) ∧
    (∀ (retryDelay : Int) (retries : Nat) (r : BackendResp), r.ok = false → r.status = 404 →
      withRetrySim (fun _ => getOpenLibraryBookDetailsOutcome r) retryDelay retries =
        (.error ⟨some 404, some notFoundCode⟩, 1, [])) ∧
    (∀ r : BackendResp, r.ok = false →
      searchOpenLibraryOutcome r = .error ⟨some r.status, none⟩) := by
  have hnf : ∀ (fn : Nat → Except ApiErr JsValue) (retryDelay : Int) (retries : Nat)
      (e : ApiErr), fn 0 = .error e → e.code = some notFoundCode →
      withRetrySim fn retryDelay retries = (.error e, 1, []) := by
    intro fn retryDelay retries e hfn hcode
    cases retries with
    | zero => simp [withRetrySim, withRetryGo, hfn]
    | succ r =>
      rw [withRetrySim, withRetryGo, hfn]
      simp only
      rw [if_pos hcode]
  refine ⟨hnf, ?_, ?_, ?_, ?_⟩
  · intro fn retryDelay retries e hfn hcode
    have := withRetryGo_persistent fn e retryDelay hfn hcode retries 0
    rw [withRetrySim, this]
    simp
  · intro r hok h404
    rw [getOpenLibraryBookDetailsOutcome, if_neg (by simp [hok]), if_pos h404]
  · intro retryDelay retries r hok h404
    apply hnf
    · rw [getOpenLibraryBookDetailsOutcome, if_neg (by simp [hok]), if_pos h404]
    · rfl
  · intro r hok
    rw [searchOpenLibraryOutcome, if_neg (by simp [hok])]

/-- Witness instantiating every conjunct of the amended C6 at concrete
errors, responses, and the shipped retry configuration. -/
theorem C6_retry_not_found_policy_witness :
    withRetrySim (fun _ => .error ⟨some 404, some notFoundCode⟩) 1000 3 =
      (.error ⟨some 404, some notFoundCode⟩, 1, []) ∧
    withRetrySim (fun _ => .error ⟨some 500, none⟩) 1000 3 =
      (.error ⟨some 500, none⟩, 3 + 1, (List.range 3).map (fun i => 1000 * 2 ^ i)) ∧
    getOpenLibraryBookDetailsOutcome ⟨false, 404, .null⟩ =
      .error ⟨some 404, some notFoundCode⟩ ∧
    withRetrySim (fun _ => getOpenLibraryBookDetailsOutcome ⟨false, 404, .null⟩) 1000 3 =
      (.error ⟨some 404, some notFoundCode⟩, 1, []) ∧
    searchOpenLibraryOutcome ⟨false, 404, .null⟩ = .error ⟨some 404, none⟩ :=
  ⟨C6_retry_not_found_policy.1 _ 1000 3 _ rfl rfl,
   C6_retry_not_found_policy.2.1 _ 1000 3 (fun _ => ⟨some 500, none⟩)
     (fun _ => rfl) (fun _ => by simp),
   C6_retry_not_found_policy.2.2.1 _ rfl rfl,
   C6_retry_not_found_policy.2.2.2.1 1000 3 _ rfl rfl,
   C6_retry_not_found_policy.2.2.2.2 _ rfl⟩

theorem throttledFetchF_reset (cfg : ApiCfg) (s : RateSt) (now : Int)
    (hM : 0 < cfg.maxRequests) (h : now - s.lastRequestTime > cfg.timeWindow) :
    throttledFetchF cfg s now = (⟨1, now⟩, now, ⟨now, now⟩) := by
  simp [throttledFetchF, canMakeRequestF, h, hM]

theorem throttledFetchF_under_cap (cfg : ApiCfg) (s : RateSt) (now : Int)
    (hnr : ¬ now - s.lastRequestTime > cfg.timeWindow)
    (hlt : s.requestCount < cfg.maxRequests) :
    throttledFetchF cfg s now =
      (⟨s.requestCount + 1, s.lastRequestTime⟩, now, ⟨now, s.lastRequestTime⟩) := by
  simp [throttledFetchF, canMakeRequestF, hnr, hlt]

theorem throttledFetchF_wait (cfg : ApiCfg) (s : RateSt) (now : Int)
    (hin : now - s.lastRequestTime ≤ cfg.timeWindow)
    (hsat : cfg.maxRequests ≤ s.requestCount) :
    throttledFetchF cfg s now =
      (⟨1, s.lastRequestTime + cfg.timeWindow⟩, s.lastRequestTime + cfg.timeWindow,
       ⟨s.lastRequestTime + cfg.timeWindow, s.lastRequestTime + cfg.timeWindow⟩) := by
  have h1 : ¬ now - s.lastRequestTime > cfg.timeWindow := by omega
  have h2 : ¬ s.requestCount < cfg.maxRequests := by omega
  by_cases ht : cfg.timeWindow - (now - s.lastRequestTime) > 0
  · simp [throttledFetchF, canMakeRequestF, waitForRateLimitF, h1, h2, ht]
    omega
  · simp [throttledFetchF, canMakeRequestF, waitForRateLimitF, h1, h2, ht]
    omega

theorem countTag_cons (w t ws : Int) (l : List FetchRec) :
    countTag w (⟨t, ws⟩ :: l) = (if ws = w then 1 else 0) + countTag w l := by
  by_cases h : ws = w
  · simp [countTag, List.countP_cons, h]
    omega
  · simp [countTag, List.countP_cons, h]

theorem countTag_eq_zero (w : Int) (l : List FetchRec)
    (h : ∀ r ∈ l, r.windowStart ≠ w) : countTag w l = 0 := by
  simp only [countTag, List.countP_eq_zero]
  intro r hr
  simpa using h r hr

theorem runThrottled_length (cfg : ApiCfg) :
    ∀ (gaps : List Int) (s : RateSt) (now : Int),
      ((runThrottled cfg s now gaps).2.2).length = gaps.length := by
  intro gaps
  induction gaps with
  | nil => intro s now; rfl
  | cons g gs ih =>
    intro s now
    simp only [runThrottled, List.length_cons, ih]

theorem runThrottled_inv (cfg : ApiCfg) (hM : 0 < cfg.maxRequests)
    (hW : 0 < cfg.timeWindow) :
    ∀ (gaps : List Int) (s : RateSt) (now : Int),
      s.requestCount ≤ cfg.maxRequests →
      ((∀ r ∈ (runThrottled cfg s now gaps).2.2, s.lastRequestTime ≤ r.windowStart) ∧
       (∀ w : Int, countTag w (runThrottled cfg s now gaps).2.2 ≤
         (if w = s.lastRequestTime then cfg.maxRequests - s.requestCount
          else cfg.maxRequests))) := by
  intro gaps
  induction gaps with
  | nil =>
    intro s now _
    refine ⟨fun r hr => absurd hr (by simp [runThrottled]), fun w => ?_⟩
    rw [show (runThrottled cfg s now []).2.2 = [] from rfl]
    rw [show countTag w ([] : List FetchRec) = 0 from rfl]
    split <;> omega
  | cons g gs ih =>
    intro s now hc
    by_cases hreset : now + g - s.lastRequestTime > cfg.timeWindow
    · have hstep := throttledFetchF_reset cfg s (now + g) hM hreset
      have hrec1 : ∀ r ∈ (runThrottled cfg ⟨1, now + g⟩ (now + g) gs).2.2,
          now + g ≤ r.windowStart := by
        have := (ih ⟨1, now + g⟩ (now + g) (by show 1 ≤ cfg.maxRequests; omega)).1
        simpa using this
      have hrec2 : ∀ w : Int, countTag w (runThrottled cfg ⟨1, now + g⟩ (now + g) gs).2.2 ≤
          (if w = now + g then cfg.maxRequests - 1 else cfg.maxRequests) := by
        have := (ih ⟨1, now + g⟩ (now + g) (by show 1 ≤ cfg.maxRequests; omega)).2
        simpa using this
      constructor
      · intro r hr
        simp only [runThrottled, hstep] at hr
        rcases List.mem_cons.mp hr with hr1 | hr1
        · rw [hr1]; show s.lastRequestTime ≤ now + g; omega
        · exact le_trans (by omega) (hrec1 r hr1)
      · intro w
        simp only [runThrottled, hstep, countTag_cons]
        by_cases hw : w = now + g
        · subst hw
          rw [if_pos rfl]
          have hb := hrec2 (now + g)
          rw [if_pos rfl] at hb
          rw [if_neg (by omega)]
          omega
        · rw [if_neg (fun hh => hw hh.symm)]
          have hb := hrec2 w
          rw [if_neg hw] at hb
          by_cases hw2 : w = s.lastRequestTime
          · rw [if_pos hw2]
            have hz : countTag w (runThrottled cfg ⟨1, now + g⟩ (now + g) gs).2.2 = 0 :=
              countTag_eq_zero w _ (fun r hr => by have := hrec1 r hr; omega)
            omega
          · rw [if_neg hw2]
            omega
    · by_cases hlt2 : s.requestCount < cfg.maxRequests
      · have hstep := throttledFetchF_under_cap cfg s (now + g) hreset hlt2
        have hrec1 : ∀ r ∈ (runThrottled cfg ⟨s.requestCount + 1, s.lastRequestTime⟩
            (now + g) gs).2.2, s.lastRequestTime ≤ r.windowStart := by
          have := (ih ⟨s.requestCount + 1, s.lastRequestTime⟩ (now + g)
            (by show s.requestCount + 1 ≤ cfg.maxRequests; omega)).1
          simpa using this
        have hrec2 : ∀ w : Int, countTag w (runThrottled cfg
            ⟨s.requestCount + 1, s.lastRequestTime⟩ (now + g) gs).2.2 ≤
            (if w = s.lastRequestTime then cfg.maxRequests - (s.requestCount + 1)
             else cfg.maxRequests) := by
          have := (ih ⟨s.requestCount + 1, s.lastRequestTime⟩ (now + g)
            (by show s.requestCount + 1 ≤ cfg.maxRequests; omega)).2
          simpa using this
        constructor
        · intro r hr
          simp only [runThrottled, hstep] at hr
          rcases List.mem_cons.mp hr with hr1 | hr1
          · rw [hr1]
          · exact hrec1 r hr1
        · intro w
          simp only [runThrottled, hstep, countTag_cons]
          by_cases hw : w = s.lastRequestTime
          · subst hw
            rw [if_pos rfl, if_pos rfl]
            have hb := hrec2 s.lastRequestTime
            rw [if_pos rfl] at hb
            omega
          · rw [if_neg (fun hh => hw hh.symm), if_neg hw]
            have hb := hrec2 w
            rw [if_neg hw] at hb
            omega
      · have hsat : cfg.maxRequests ≤ s.requestCount := Nat.le_of_not_lt hlt2
        have hstep := throttledFetchF_wait cfg s (now + g) (by omega) hsat
        have hrec1 : ∀ r ∈ (runThrottled cfg ⟨1, s.lastRequestTime + cfg.timeWindow⟩
            (s.lastRequestTime + cfg.timeWindow) gs).2.2,
            s.lastRequestTime + cfg.timeWindow ≤ r.windowStart := by
          have := (ih ⟨1, s.lastRequestTime + cfg.timeWindow⟩
            (s.lastRequestTime + cfg.timeWindow) (by show 1 ≤ cfg.maxRequests; omega)).1
          simpa using this
        have hrec2 : ∀ w : Int, countTag w (runThrottled cfg
            ⟨1, s.lastRequestTime + cfg.timeWindow⟩
            (s.lastRequestTime + cfg.timeWindow) gs).2.2 ≤
            (if w = s.lastRequestTime + cfg.timeWindow then cfg.maxRequests - 1
             else cfg.maxRequests) := by
          have := (ih ⟨1, s.lastRequestTime + cfg.timeWindow⟩
            (s.lastRequestTime + cfg.timeWindow) (by show 1 ≤ cfg.maxRequests; omega)).2
          simpa using this
        constructor
        · intro r hr
          simp only [runThrottled, hstep] at hr
          rcases List.mem_cons.mp hr with hr1 | hr1
          · rw [hr1]; show s.lastRequestTime ≤ s.lastRequestTime + cfg.timeWindow; omega
          · exact le_trans (by omega) (hrec1 r hr1)
        · intro w
          simp only [runThrottled, hstep, countTag_cons]
          by_cases hw : w = s.lastRequestTime + cfg.timeWindow
          · subst hw
            rw [if_pos rfl]
            have hb := hrec2 (s.lastRequestTime + cfg.timeWindow)
            rw [if_pos rfl] at hb
            rw [if_neg (by omega)]
            omega
          · rw [if_neg (fun hh => hw hh.symm)]
            have hb := hrec2 w
            rw [if_neg hw] at hb
            by_cases hw2 : w = s.lastRequestTime
            · rw [if_pos hw2]
              have hz : countTag w (runThrottled cfg ⟨1, s.lastRequestTime + cfg.timeWindow⟩
                  (s.lastRequestTime + cfg.timeWindow) gs).2.2 = 0 :=
                countTag_eq_zero w _ (fun r hr => by have := hrec1 r hr; omega)
              omega
            · rw [if_neg hw2]
              omega

/-- **C8.**  In the single cooperative thread: every `throttledFetch` call
issues exactly one fetch (none dropped or failed); at most `maxRequests`
fetches are counted against any one rate-limit window (identified by its
`lastRequestTime` start); and a call arriving with the counter saturated
inside the window is delayed exactly until the window resets, at which point
the counter is cleared (the delayed request is counted as the first of the new
window) and the fetch is issued. -/
theorem C8_rate_limiter_window (cfg : ApiCfg) (hM : 0 < cfg.maxRequests)
    (hW : 0 < cfg.timeWindow) :
    (∀ (gaps : List Int) (s : RateSt) (now : Int),
      ((runThrottled cfg s now gaps).2.2).length = gaps.length) ∧
    (∀ (gaps : List Int) (t0 w : Int),
      countTag w (runThrottled cfg ⟨0, t0⟩ t0 gaps).2.2 ≤ cfg.maxRequests) ∧
    (∀ (s : RateSt) (now : Int), cfg.maxRequests ≤ s.requestCount →
      now - s.lastRequestTime ≤ cfg.timeWindow →
      throttledFetchF cfg s now =
        (⟨1, s.lastRequestTime + cfg.timeWindow⟩, s.lastRequestTime + cfg.timeWindow,
         ⟨s.lastRequestTime + cfg.timeWindow, s.lastRequestTime + cfg.timeWindow⟩)) := by
  refine ⟨runThrottled_length cfg, ?_, fun s now h1 h2 => throttledFetchF_wait cfg s now h2 h1⟩
  intro gaps t0 w
  have hb := (runThrottled_inv cfg hM hW gaps ⟨0, t0⟩ t0
    (by show 0 ≤ cfg.maxRequests; omega)).2 w
  by_cases hw : w = t0
  · rw [if_pos (by simpa using hw)] at hb
    omega
  · rw [if_neg (by simpa using hw)] at hb
    exact hb

/-- Witness instantiating C8 at the shipped configuration with 12 immediate
requests and one saturated call. -/
theorem C8_rate_limiter_window_witness :
    ((runThrottled apiConfig ⟨0, 0⟩ 0 (List.replicate 12 0)).2.2).length =
      (List.replicate 12 0).length ∧
    countTag 0 (runThrottled apiConfig ⟨0, 0⟩ 0 (List.replicate 12 0)).2.2 ≤
      apiConfig.maxRequests ∧
    throttledFetchF apiConfig ⟨10, 0⟩ 0 = (⟨1, 1000⟩, 1000, ⟨1000, 1000⟩) :=
  ⟨(C8_rate_limiter_window apiConfig (by decide) (by decide)).1 (List.replicate 12 0) ⟨0, 0⟩ 0,
   (C8_rate_limiter_window apiConfig (by decide) (by decide)).2.1 (List.replicate 12 0) 0 0,
   by rw [(C8_rate_limiter_window apiConfig (by decide) (by decide)).2.2 ⟨10, 0⟩ 0
       (by decide) (by decide)]; rfl⟩

theorem cacheLookup_cacheSet_self (k : String) (e : CacheEntry) (c : ApiCache) :
    cacheLookup k (cacheSet k e c) = some e := by
  induction c with
  | nil => simp [cacheLookup, cacheSet]
  | cons kv t ih =>
    obtain ⟨k', v'⟩ := kv
    by_cases h : k' = k
    · simp [cacheSet, h, cacheLookup]
    · simp only [cacheSet, h, reduceIte, cacheLookup, ih]

theorem getFromCacheF_absent (now : Int) (k : String) (c : ApiCache)
    (h : cacheLookup k c = none) : getFromCacheF now k c = (none, c) := by
  simp [getFromCacheF, h]

theorem getFromCacheF_live (now : Int) (k : String) (c : ApiCache) (e : CacheEntry)
    (h : cacheLookup k c = some e) (hlive : now ≤ e.expiry) :
    getFromCacheF now k c = (some e.data, c) := by
  simp only [getFromCacheF, h]
  rw [if_neg (by omega)]

theorem getFromCacheF_expired (now : Int) (k : String) (c : ApiCache) (e : CacheEntry)
    (h : cacheLookup k c = some e) (hexp : now > e.expiry) :
    getFromCacheF now k c = (none, cacheDelete k c) := by
  simp only [getFromCacheF, h]
  rw [if_pos hexp]

theorem throttledFetchF_now_of_lt (cfg : ApiCfg) (s : RateSt) (now : Int)
    (h : s.requestCount < cfg.maxRequests) :
    (throttledFetchF cfg s now).2.1 = now := by
  by_cases hr : now - s.lastRequestTime > cfg.timeWindow
  · rw [throttledFetchF_reset cfg s now (by omega) hr]
  · rw [throttledFetchF_under_cap cfg s now hr h]

theorem withRetryNetGo_first_ok (cfg : ApiCfg) (responses : Nat → BackendResp)
    (rs : RateSt) (now : Int) (hok : (responses 0).ok = true) :
    ∀ remaining, withRetryNetGo cfg responses 0 rs now remaining =
      (.ok (responses 0).payload, (throttledFetchF cfg rs now).1,
       (throttledFetchF cfg rs now).2.1, 1) := by
  intro remaining
  cases remaining with
  | zero => simp [withRetryNetGo, searchOpenLibraryOutcome, hok]
  | succ r => simp [withRetryNetGo, searchOpenLibraryOutcome, hok]

theorem searchBooksM_miss_ok (cfg : ApiCfg) (st : NetState) (now : Int) (key : String)
    (responses : Nat → BackendResp) (c1 : ApiCache)
    (hget : getFromCacheF now key st.cache = (none, c1))
    (hok : (responses 0).ok = true)
    (hrate : st.rate.requestCount < cfg.maxRequests) :
    searchBooksM cfg st now key responses =
      (.ok (responses 0).payload,
       ⟨cacheSet key ⟨(responses 0).payload, now + cfg.ttl⟩ c1,
        (throttledFetchF cfg st.rate now).1⟩, now, 1) := by
  simp only [searchBooksM, hget,
    withRetryNetGo_first_ok cfg responses st.rate now hok cfg.maxRetries,
    throttledFetchF_now_of_lt cfg st.rate now hrate]
  rfl

theorem searchBooksM_hit (cfg : ApiCfg) (st : NetState) (now : Int) (key : String)
    (responses : Nat → BackendResp) (d : JsValue)
    (hget : getFromCacheF now key st.cache = (some d, st.cache)) :
    searchBooksM cfg st now key responses = (.ok d, st, now, 0) := by
  simp only [searchBooksM, hget]

/-- **C7.**  Two `searchBooks` calls with the same cache key within the TTL
perform exactly one network fetch: the first call misses, fetches once, and
caches the result with expiry `now + ttl`; a second call at any `t1 ≤ expiry`
is served from the cache, fetching nothing and leaving the whole client state
— cache and rate-limiter counters — untouched.  A call at `t2 > expiry` finds
the entry logically absent, evicts it on that read, fetches once anew, and
re-caches under expiry `t2 + ttl`. -/
theorem C7_search_cache_ttl
    (cfg : ApiCfg) (st : NetState) (now t1 t2 : Int) (key : String)
    (responses responses2 responses3 : Nat → BackendResp)
    (habsent : cacheLookup key st.cache = none)
    (hrate : st.rate.requestCount < cfg.maxRequests)
    (hok : (responses 0).ok = true)
    (hok3 : (responses3 0).ok = true)
    (hrate2 : (throttledFetchF cfg st.rate now).1.requestCount < cfg.maxRequests)
    (ht1 : t1 ≤ now + cfg.ttl)
    (ht2 : t2 > now + cfg.ttl) :
    searchBooksM cfg st now key responses =
      (.ok (responses 0).payload,
       ⟨cacheSet key ⟨(responses 0).payload, now + cfg.ttl⟩ st.cache,
        (throttledFetchF cfg st.rate now).1⟩, now, 1) ∧
    searchBooksM cfg ⟨cacheSet key ⟨(responses 0).payload, now + cfg.ttl⟩ st.cache,
        (throttledFetchF cfg st.rate now).1⟩ t1 key responses2 =
      (.ok (responses 0).payload,
       ⟨cacheSet key ⟨(responses 0).payload, now + cfg.ttl⟩ st.cache,
        (throttledFetchF cfg st.rate now).1⟩, t1, 0) ∧
    getFromCacheF t2 key (cacheSet key ⟨(responses 0).payload, now + cfg.ttl⟩ st.cache) =
      (none, cacheDelete key (cacheSet key ⟨(responses 0).payload, now + cfg.ttl⟩ st.cache)) ∧
    searchBooksM cfg ⟨cacheSet key ⟨(responses 0).payload, now + cfg.ttl⟩ st.cache,
        (throttledFetchF cfg st.rate now).1⟩ t2 key responses3 =
      (.ok (responses3 0).payload,
       ⟨cacheSet key ⟨(responses3 0).payload, t2 + cfg.ttl⟩
          (cacheDelete key (cacheSet key ⟨(responses 0).payload, now + cfg.ttl⟩ st.cache)),
        (throttledFetchF cfg (throttledFetchF cfg st.rate now).1 t2).1⟩, t2, 1) ∧
    cacheLookup key
      (cacheSet key ⟨(responses3 0).payload, t2 + cfg.ttl⟩
        (cacheDelete key (cacheSet key ⟨(responses 0).payload, now + cfg.ttl⟩ st.cache))) =
      some ⟨(responses3 0).payload, t2 + cfg.ttl⟩ := by
  have hevict : getFromCacheF t2 key
      (cacheSet key ⟨(responses 0).payload, now + cfg.ttl⟩ st.cache) =
      (none, cacheDelete key (cacheSet key ⟨(responses 0).payload, now + cfg.ttl⟩ st.cache)) :=
    getFromCacheF_expired t2 key _ _ (cacheLookup_cacheSet_self key _ st.cache) (by simpa using ht2)
  refine ⟨?_, ?_, hevict, ?_, cacheLookup_cacheSet_self key _ _⟩
  · exact searchBooksM_miss_ok cfg st now key responses st.cache
      (getFromCacheF_absent now key st.cache habsent) hok hrate
  · exact searchBooksM_hit cfg _ t1 key responses2 (responses 0).payload
      (getFromCacheF_live t1 key _ ⟨(responses 0).payload, now + cfg.ttl⟩
        (cacheLookup_cacheSet_self key _ st.cache) (by simpa using ht1))
  · exact searchBooksM_miss_ok cfg _ t2 key responses3 _ hevict hok3 hrate2

/-- Witness instantiating C7 at the shipped configuration: first call at 0,
second at 1000 (inside the 5-minute TTL), third at 300001 (expired). -/
theorem C7_search_cache_ttl_witness :
    cacheLookup "search:openlibrary:dune" ([] : ApiCache) = none ∧
    searchBooksM apiConfig ⟨[], ⟨0, 0⟩⟩ 0 "search:openlibrary:dune"
        (fun _ => ⟨true, 200, .str "results"⟩) =
      (.ok (.str "results"),
       ⟨[("search:openlibrary:dune", ⟨.str "results", 300000⟩)], ⟨1, 0⟩⟩, 0, 1) ∧
    searchBooksM apiConfig ⟨[("search:openlibrary:dune", ⟨.str "results", 300000⟩)], ⟨1, 0⟩⟩
        1000 "search:openlibrary:dune" (fun _ => ⟨true, 200, .str "other"⟩) =
      (.ok (.str "results"),
       ⟨[("search:openlibrary:dune", ⟨.str "results", 300000⟩)], ⟨1, 0⟩⟩, 1000, 0) ∧
    (searchBooksM apiConfig ⟨[("search:openlibrary:dune", ⟨.str "results", 300000⟩)], ⟨1, 0⟩⟩
        300001 "search:openlibrary:dune" (fun _ => ⟨true, 200, .str "fresh"⟩)).2.2.2 = 1 ∧
    (searchBooksM apiConfig ⟨[("search:openlibrary:dune", ⟨.str "results", 300000⟩)], ⟨1, 0⟩⟩
        300001 "search:openlibrary:dune" (fun _ => ⟨true, 200, .str "fresh"⟩)).1 =
      .ok (.str "fresh") := by
  have h := C7_search_cache_ttl apiConfig ⟨[], ⟨0, 0⟩⟩ 0 1000 300001
    "search:openlibrary:dune" (fun _ => ⟨true, 200, .str "results"⟩)
    (fun _ => ⟨true, 200, .str "other"⟩) (fun _ => ⟨true, 200, .str "fresh"⟩)
    rfl (by decide) rfl rfl (by decide) (by decide) (by decide)
  refine ⟨rfl, ?_, ?_, ?_, ?_⟩
  · exact h.1
  · exact h.2.1
  · exact congrArg (fun x => x.2.2.2) h.2.2.2.1
  · exact congrArg (fun x => x.1) h.2.2.2.1
